import Mathlib

set_option autoImplicit false

/-!
Shallow embedding of `src/main.py` (coffee order builder).

Conventions of the embedding:
* Python strings are `String`, Python tuples of strings are `List String`
  (both immutable, insertion order preserved), Python `int` is `Int`.
* Python `float` carries small decimal currency amounts here; the spec fixes
  all price arithmetic in exact decimal currency units with no rounding, so
  prices are embedded as exact rationals `ℚ`, with the decimal literals of the
  source denoting the same decimal values (for example `1.2 = 6/5`,
  `0.2 = 1/5`). The source actually computes in IEEE-754 binary64, which
  agrees with the exact values for every base-times-size product and every
  integer-valued addition, but not for the iced surcharge 0.2; where that
  rounding is observable, the binary64 semantics is modelled explicitly
  (`IsRepr64`, `RoundsTo64`).
* A Python method that can `raise ValueError(msg)` becomes a function into
  `Except String _` whose error value is the `ValueError` message string.
  A raising call performs no mutation, so the caller keeps the old state
  (see `applyOp`).
* The messages of `set_base` / `set_size` / `set_milk` end, in Python, with
  the `repr` of the allowed set, whose element order is unspecified; no claim
  depends on those messages, so only their determinate prefix is kept.
-/

/-- The frozen dataclass `CoffeeOrder` of `src/main.py`. -/
structure CoffeeOrder where
  base : String
  size : String
  milk : String := "none"
  syrups : List String := []
  sugar : Int := 0
  iced : Bool := false
  price : ℚ := 0
  description : String := ""
deriving DecidableEq, Repr

/-- `CoffeeOrder.__str__`: the description when non-empty, otherwise a
price fallback line (rendered with two decimals in Python; the numeric payload
is kept exact here). -/
def CoffeeOrder.strOf (o : CoffeeOrder) : String :=
  if o.description ≠ "" then o.description
  else "Coffee order: " ++ toString o.price ++ " rub."

/-- The mutable state of `CoffeeOrderBuilder`: `_base` and `_size` start as
`None`, the extras start at their defaults (`__init__` calls
`clear_extras()`). -/
structure CoffeeOrderBuilder where
  _base : Option String
  _size : Option String
  _milk : String
  _syrups : List String
  _sugar : Int
  _iced : Bool
deriving DecidableEq, Repr

/-- `CoffeeOrderBuilder.BASE_PRICES` (dict lookup; total here with default `0`
outside the key set, which every caller guards by `VALID_BASES`). -/
def BASE_PRICES (b : String) : ℚ :=
  if b = "espresso" then 200.0
  else if b = "americano" then 250.0
  else if b = "latte" then 300.0
  else if b = "cappuccino" then 320.0
  else 0

/-- `CoffeeOrderBuilder.SIZE_MULTIPLIERS`. -/
def SIZE_MULTIPLIERS (s : String) : ℚ :=
  if s = "small" then 1.0
  else if s = "medium" then 1.2
  else if s = "large" then 1.4
  else 0

/-- `CoffeeOrderBuilder.MILK_PRICES`. -/
def MILK_PRICES (m : String) : ℚ :=
  if m = "none" then 0.0
  else if m = "whole" then 30.0
  else if m = "skim" then 30.0
  else if m = "oat" then 60.0
  else if m = "soy" then 50.0
  else 0

/-- `CoffeeOrderBuilder.SYRUP_PRICE`. -/
def SYRUP_PRICE : ℚ := 40.0

/-- `CoffeeOrderBuilder.ICED_PRICE`. -/
def ICED_PRICE : ℚ := 0.2

/-- `CoffeeOrderBuilder.MAX_SUGAR`. -/
def MAX_SUGAR : Int := 5

/-- `CoffeeOrderBuilder.MAX_SYRUPS`. -/
def MAX_SYRUPS : Nat := 4

/-- `CoffeeOrderBuilder.VALID_BASES`. -/
def VALID_BASES : List String := ["espresso", "americano", "latte", "cappuccino"]

/-- `CoffeeOrderBuilder.VALID_SIZES`. -/
def VALID_SIZES : List String := ["small", "medium", "large"]

/-- `CoffeeOrderBuilder.VALID_MILKS`. -/
def VALID_MILKS : List String := ["none", "whole", "skim", "oat", "soy"]

/-- `CoffeeOrderBuilder.__init__`: `clear_extras()` defaults plus unset
`_base` and `_size`. -/
def newBuilder : CoffeeOrderBuilder :=
  { _base := none, _size := none, _milk := "none", _syrups := [], _sugar := 0,
    _iced := false }

/-- `CoffeeOrderBuilder.set_base`. -/
def set_base (self : CoffeeOrderBuilder) (base : String) :
    Except String CoffeeOrderBuilder :=
  if base ∉ VALID_BASES then
    Except.error ("Invalid base: " ++ base ++ ". Must be one of ")
  else
    Except.ok { self with _base := some base }

/-- `CoffeeOrderBuilder.set_size`. -/
def set_size (self : CoffeeOrderBuilder) (size : String) :
    Except String CoffeeOrderBuilder :=
  if size ∉ VALID_SIZES then
    Except.error ("invalid size: " ++ size ++ ". must be one of ")
  else
    Except.ok { self with _size := some size }

/-- `CoffeeOrderBuilder.set_milk`. -/
def set_milk (self : CoffeeOrderBuilder) (milk : String) :
    Except String CoffeeOrderBuilder :=
  if milk ∉ VALID_MILKS then
    Except.error ("invalid milk type: " ++ milk ++ ". must be one of ")
  else
    Except.ok { self with _milk := milk }

/-- `CoffeeOrderBuilder.add_syrup`: the capacity check comes first in the
source, before the duplicate test. -/
def add_syrup (self : CoffeeOrderBuilder) (name : String) :
    Except String CoffeeOrderBuilder :=
  if self._syrups.length ≥ MAX_SYRUPS then
    Except.error ("cannot add more than " ++ toString MAX_SYRUPS ++ " syrups")
  else if name ∉ self._syrups then
    Except.ok { self with _syrups := self._syrups ++ [name] }
  else
    Except.ok self

/-- `CoffeeOrderBuilder.set_sugar`. -/
def set_sugar (self : CoffeeOrderBuilder) (teaspoons : Int) :
    Except String CoffeeOrderBuilder :=
  if ¬ (0 ≤ teaspoons ∧ teaspoons ≤ MAX_SUGAR) then
    Except.error ("sugar quantity must be between 0 and " ++ toString MAX_SUGAR)
  else
    Except.ok { self with _sugar := teaspoons }

/-- `CoffeeOrderBuilder.set_iced` (no validation, never raises). -/
def set_iced (self : CoffeeOrderBuilder) (iced : Bool) : CoffeeOrderBuilder :=
  { self with _iced := iced }

/-- `CoffeeOrderBuilder.clear_extras` (never raises). -/
def clear_extras (self : CoffeeOrderBuilder) : CoffeeOrderBuilder :=
  { self with _milk := "none", _syrups := [], _sugar := 0, _iced := false }

/-- `CoffeeOrderBuilder._calculate_price`; the conditional
`if self._iced: price += self.ICED_PRICE` becomes an added
`if _ then ICED_PRICE else 0` term. -/
def _calculate_price (self : CoffeeOrderBuilder) : Except String ℚ :=
  match self._base, self._size with
  | some b, some s =>
      Except.ok (BASE_PRICES b * SIZE_MULTIPLIERS s
        + MILK_PRICES self._milk
        + (self._syrups.length : ℚ) * SYRUP_PRICE
        + (if self._iced then ICED_PRICE else 0))
  | _, _ => Except.error "base and size must be set before calculating price"

/-- `CoffeeOrderBuilder._build_description`: the Python list `parts` grown by
successive appends, then joined by a single space. -/
def _build_description (self : CoffeeOrderBuilder) : String :=
  match self._base, self._size with
  | some b, some s =>
      let parts := [s ++ " " ++ b]
      let parts := if self._milk ≠ "none" then
          parts ++ ["with " ++ self._milk ++ " milk"] else parts
      let parts := if self._syrups ≠ [] then
          parts ++ ["+" ++ String.intercalate "+" self._syrups] else parts
      let parts := if self._iced then parts ++ ["(iced)"] else parts
      let parts := if self._sugar > 0 then
          parts ++ [toString self._sugar ++ " tsp sugar"] else parts
      String.intercalate " " parts
  | _, _ => ""

/-- `CoffeeOrderBuilder.build`: two missing-field checks, two defensive
re-checks, then price and description. -/
def build (self : CoffeeOrderBuilder) : Except String CoffeeOrder :=
  match self._base, self._size with
  | none, _ => Except.error "base is required"
  | some _, none => Except.error "size is required"
  | some b, some s =>
      if self._syrups.length > MAX_SYRUPS then
        Except.error ("cannot have more than " ++ toString MAX_SYRUPS ++ " syrups")
      else if ¬ (0 ≤ self._sugar ∧ self._sugar ≤ MAX_SUGAR) then
        Except.error ("sugar quantity must be between 0 and " ++ toString MAX_SUGAR)
      else
        match _calculate_price self with
        | Except.error e => Except.error e
        | Except.ok price =>
            Except.ok
              { base := b, size := s, milk := self._milk,
                syrups := self._syrups, sugar := self._sugar,
                iced := self._iced, price := price,
                description := _build_description self }

/-! ## Operation layer

The public methods of the builder, as a small operation language. A Python
call that raises leaves the builder untouched (every mutation in the source
happens after its validation check), so `applyOp` keeps the old state on
`Except.error`; `build` never mutates the builder. -/

/-- One public builder call. -/
inductive Op where
  | setBase (v : String)
  | setSize (v : String)
  | setMilk (v : String)
  | addSyrup (v : String)
  | setSugar (n : Int)
  | setIced (b : Bool)
  | clearExtras
  | buildOp
deriving DecidableEq, Repr

/-- Next builder state after a possibly raising call: the new state on
success, the unchanged old state when the call raised. -/
def stepOr (s : CoffeeOrderBuilder) :
    Except String CoffeeOrderBuilder → CoffeeOrderBuilder
  | Except.ok t => t
  | Except.error _ => s

/-- The builder state after one public call. -/
def applyOp (s : CoffeeOrderBuilder) : Op → CoffeeOrderBuilder
  | Op.setBase v => stepOr s (set_base s v)
  | Op.setSize v => stepOr s (set_size s v)
  | Op.setMilk v => stepOr s (set_milk s v)
  | Op.addSyrup v => stepOr s (add_syrup s v)
  | Op.setSugar n => stepOr s (set_sugar s n)
  | Op.setIced b => set_iced s b
  | Op.clearExtras => clear_extras s
  | Op.buildOp => s

/-- The builder state after a sequence of public calls. -/
def applyOps (s : CoffeeOrderBuilder) (l : List Op) : CoffeeOrderBuilder :=
  l.foldl applyOp s

/-- The builder state reached from a fresh builder by a sequence of public
calls. -/
def runOps (l : List Op) : CoffeeOrderBuilder :=
  applyOps newBuilder l

/-- The orders a single call returns: a successful `build()` yields one
order, every other call (and a failed build) yields none. -/
def builtHere (s : CoffeeOrderBuilder) : Op → List CoffeeOrder
  | Op.buildOp =>
      match build s with
      | Except.ok o => [o]
      | Except.error _ => []
  | _ => []

/-- All orders returned, in sequence, by a list of public calls starting
from state `s`. -/
def ordersOf : List Op → CoffeeOrderBuilder → List CoffeeOrder
  | [], _ => []
  | op :: rest, s => builtHere s op ++ ordersOf rest (applyOp s op)

/-- The builder invariant: distinct syrups, at most `MAX_SYRUPS` of them,
sugar within `0..MAX_SUGAR`. -/
def BuilderInv (s : CoffeeOrderBuilder) : Prop :=
  s._syrups.Nodup ∧ s._syrups.length ≤ MAX_SYRUPS ∧
    0 ≤ s._sugar ∧ s._sugar ≤ MAX_SUGAR

instance (s : CoffeeOrderBuilder) : Decidable (BuilderInv s) := by
  unfold BuilderInv; infer_instance

/-- The description algorithm as worded in the spec: a space-join of the
always-present part and the four conditional parts. Used only to compare
with `_build_description`, which is transcribed from the source. -/
def spec_description (size base milk : String) (syrups : List String)
    (iced : Bool) (sugar : Int) : String :=
  String.intercalate " "
    ([size ++ " " ++ base]
      ++ (if milk ≠ "none" then ["with " ++ milk ++ " milk"] else [])
      ++ (if syrups ≠ [] then ["+" ++ String.intercalate "+" syrups] else [])
      ++ (if iced then ["(iced)"] else [])
      ++ (if sugar > 0 then [toString sugar ++ " tsp sugar"] else []))

/-! ## Binary64 semantics of the source arithmetic

The Python source computes prices in IEEE-754 binary64. The exact-rational
embedding above is observation-exact for every price term except the iced
surcharge: each base-times-size product and every other addition lands
exactly on its decimal value in binary64, but the literal `0.2` is not a
dyadic rational, so adding it rounds. Where that rounding is observable the
binary64 semantics is modelled explicitly below: a finite double is an
integer significand of magnitude below `2 ^ 53` times a power of two
(exponent-range limits are irrelevant for the mid-range values of this
development), and a basic operation returns a nearest representable value of
its exact result. No computation studied here hits a tie, so the statements
hold for every round-to-nearest tie-breaking rule, including the
ties-to-even rule binary64 actually uses. -/

/-- A finite IEEE-754 binary64 value. -/
def IsRepr64 (y : ℚ) : Prop :=
  ∃ m e : ℤ, |m| < 2 ^ 53 ∧ y = (m : ℚ) * (2 : ℚ) ^ e

/-- `y` is a binary64 round-to-nearest result for the exact value `x`:
`y` is representable and no representable value is closer to `x`. -/
def RoundsTo64 (x y : ℚ) : Prop :=
  IsRepr64 y ∧ ∀ z : ℚ, IsRepr64 z → |x - y| ≤ |x - z|

/-! ## Helper lemmas -/

/-- `build` on a state with base and size set, at most `MAX_SYRUPS` syrups
and in-range sugar returns the order with the source price formula. -/
theorem build_ok (b s m : String) (syr : List String) (sug : Int) (ic : Bool)
    (hlen : syr.length ≤ MAX_SYRUPS) (h0 : 0 ≤ sug) (h5 : sug ≤ MAX_SUGAR) :
    build ⟨some b, some s, m, syr, sug, ic⟩ = Except.ok
      { base := b, size := s, milk := m, syrups := syr, sugar := sug,
        iced := ic,
        price := BASE_PRICES b * SIZE_MULTIPLIERS s + MILK_PRICES m
          + (syr.length : ℚ) * SYRUP_PRICE + (if ic then ICED_PRICE else 0),
        description := _build_description ⟨some b, some s, m, syr, sug, ic⟩ } := by
  simp only [build, _calculate_price]
  rw [if_neg (Nat.not_lt.mpr hlen), if_neg (not_not_intro ⟨h0, h5⟩)]

/-- `_build_description` on a state with base and size set agrees with the
spec wording of the algorithm. -/
theorem description_eq_spec (b s m : String) (syr : List String) (sug : Int)
    (ic : Bool) :
    _build_description ⟨some b, some s, m, syr, sug, ic⟩
      = spec_description s b m syr ic sug := by
  simp only [_build_description, spec_description]
  split_ifs <;> simp_all [List.append_assoc]

/-- Binary64 rounding, evaluated: if `y₀ = m₀ * 2 ^ g` is representable,
lies within half a grid step of `x`, and `x` is large enough that no finer
representable grid reaches it (`2 ^ (52 + g)` bounds every representable
value with a smaller exponent), then `y₀` is the unique round-to-nearest
result for `x`. -/
theorem round64_eval (x y₀ : ℚ) (m₀ g : ℤ)
    (hy : y₀ = (m₀ : ℚ) * (2 : ℚ) ^ g) (hm : |m₀| < 2 ^ 53)
    (hx0 : 0 < x)
    (hlo : y₀ - (2 : ℚ) ^ g / 2 < x) (hhi : x < y₀ + (2 : ℚ) ^ g / 2)
    (hfar : (2 : ℚ) ^ (52 + g) + (2 : ℚ) ^ g / 2 ≤ x) :
    RoundsTo64 x y₀ ∧ ∀ y : ℚ, RoundsTo64 x y → y = y₀ := by
  have hg0 : (0:ℚ) < (2:ℚ) ^ g := zpow_pos (by norm_num) g
  have hnear : |x - y₀| < (2:ℚ) ^ g / 2 :=
    abs_sub_lt_iff.mpr ⟨by linarith, by linarith⟩
  have key : ∀ z : ℚ, IsRepr64 z → z ≠ y₀ → |x - y₀| < |x - z| := by
    rintro z ⟨m, e, hme, rfl⟩ hne
    rcases le_or_lt g e with hge | hlt
    · have hn : ((e - g).toNat : ℤ) = e - g := Int.toNat_of_nonneg (by omega)
      have hzk : (m : ℚ) * (2:ℚ) ^ e
          = ((m * 2 ^ (e - g).toNat : ℤ) : ℚ) * (2:ℚ) ^ g := by
        push_cast
        rw [mul_assoc, ← zpow_natCast (2:ℚ) (e - g).toNat, hn,
          ← zpow_add₀ (by norm_num : (2:ℚ) ≠ 0)]
        ring_nf
      set k : ℤ := m * 2 ^ (e - g).toNat with hk
      have hkm : k ≠ m₀ := by
        intro hkm
        exact hne (by rw [hzk, hkm, ← hy])
      have h1 : (1:ℚ) ≤ |(k:ℚ) - (m₀:ℚ)| := by
        have h := Int.one_le_abs (sub_ne_zero.mpr hkm)
        calc (1:ℚ) = ((1:ℤ) : ℚ) := by norm_num
          _ ≤ ((|k - m₀| : ℤ) : ℚ) := by exact_mod_cast h
          _ = |(k:ℚ) - (m₀:ℚ)| := by push_cast; rfl
      have hsep : (2:ℚ)^g ≤ |(k:ℚ) * (2:ℚ)^g - y₀| := by
        rw [hy, ← sub_mul, abs_mul, abs_of_pos hg0]
        nlinarith [h1, hg0]
      have htri : |(k:ℚ) * (2:ℚ)^g - y₀|
          ≤ |(k:ℚ) * (2:ℚ)^g - x| + |x - y₀| := abs_sub_le _ x _
      have habs : |(k:ℚ) * (2:ℚ)^g - x| = |x - (k:ℚ) * (2:ℚ)^g| :=
        abs_sub_comm _ _
      rw [hzk]
      linarith
    · have hmq : |(m:ℚ)| < (2:ℚ) ^ (53:ℕ) := by exact_mod_cast hme
      have hee : (2:ℚ) ^ e ≤ (2:ℚ) ^ (g - 1) :=
        zpow_le_zpow_right₀ (by norm_num) (by omega)
      have hze : |(m : ℚ) * (2:ℚ) ^ e| < (2:ℚ) ^ (52 + g) := by
        rw [abs_mul, abs_of_pos (zpow_pos (by norm_num : (0:ℚ) < 2) e)]
        have h53 : (2:ℚ) ^ (53:ℕ) * (2:ℚ) ^ (g - 1) = (2:ℚ) ^ (52 + g) := by
          rw [← zpow_natCast (2:ℚ) 53, ← zpow_add₀ (by norm_num : (2:ℚ) ≠ 0)]
          congr 1
          omega
        calc |(m:ℚ)| * (2:ℚ) ^ e
            ≤ |(m:ℚ)| * (2:ℚ) ^ (g - 1) :=
              mul_le_mul_of_nonneg_left hee (abs_nonneg _)
          _ < (2:ℚ) ^ (53:ℕ) * (2:ℚ) ^ (g - 1) :=
              mul_lt_mul_of_pos_right hmq (zpow_pos (by norm_num) _)
          _ = (2:ℚ) ^ (52 + g) := h53
      have habs2 : |x| - |(m : ℚ) * (2:ℚ) ^ e| ≤ |x - (m : ℚ) * (2:ℚ) ^ e| :=
        abs_sub_abs_le_abs_sub _ _
      rw [abs_of_pos hx0] at habs2
      linarith
  refine ⟨⟨⟨m₀, g, hm, hy⟩, ?_⟩, ?_⟩
  · intro z hz
    by_cases hzy : z = y₀
    · rw [hzy]
    · exact le_of_lt (key z hz hzy)
  · rintro y ⟨hyrepr, hymin⟩
    by_contra hne
    have h1 := hymin y₀ ⟨m₀, g, hm, hy⟩
    have h2 := key y hyrepr hne
    linarith

/-- An exactly representable value is its own unique round-to-nearest
result. -/
theorem round64_exact (x : ℚ) (hx : IsRepr64 x) :
    RoundsTo64 x x ∧ ∀ y : ℚ, RoundsTo64 x y → y = x := by
  refine ⟨⟨hx, fun z _ => by simp [abs_nonneg]⟩, ?_⟩
  rintro y ⟨hyrepr, hymin⟩
  have h0 : |x - y| ≤ 0 := by simpa using hymin x hx
  have h1 : x - y = 0 := abs_eq_zero.mp (le_antisymm h0 (abs_nonneg _))
  linarith

/-- The fresh builder satisfies the invariant. -/
theorem builderInv_newBuilder : BuilderInv newBuilder := by decide

/-- Every public call preserves the builder invariant. -/
theorem builderInv_applyOp (s : CoffeeOrderBuilder) (op : Op)
    (h : BuilderInv s) : BuilderInv (applyOp s op) := by
  obtain ⟨hnd, hlen, h0, h5⟩ := h
  cases op with
  | setBase v =>
      simp only [applyOp, set_base]
      split <;> simp_all [stepOr, BuilderInv]
  | setSize v =>
      simp only [applyOp, set_size]
      split <;> simp_all [stepOr, BuilderInv]
  | setMilk v =>
      simp only [applyOp, set_milk]
      split <;> simp_all [stepOr, BuilderInv]
  | addSyrup v =>
      simp only [applyOp, add_syrup]
      split
      · exact ⟨hnd, hlen, h0, h5⟩
      · next hcap =>
          split
          · next hmem =>
              refine ⟨?_, ?_, h0, h5⟩
              · simp [stepOr, List.nodup_append, hnd, hmem]
              · simp only [stepOr, List.length_append, List.length_cons,
                  List.length_nil]
                simp only [MAX_SYRUPS] at hcap ⊢
                omega
          · exact ⟨hnd, hlen, h0, h5⟩
  | setSugar n =>
      simp only [applyOp, set_sugar]
      split
      · exact ⟨hnd, hlen, h0, h5⟩
      · next hok =>
          rw [not_not] at hok
          exact ⟨hnd, hlen, hok.1, hok.2⟩
  | setIced b => exact ⟨hnd, hlen, h0, h5⟩
  | clearExtras =>
      refine ⟨List.nodup_nil, ?_, le_refl 0, ?_⟩ <;> simp [applyOp, clear_extras,
        MAX_SUGAR]
  | buildOp => exact ⟨hnd, hlen, h0, h5⟩

/-- The invariant is preserved by any sequence of public calls. -/
theorem builderInv_applyOps (s : CoffeeOrderBuilder) (h : BuilderInv s)
    (l : List Op) : BuilderInv (applyOps s l) := by
  induction l generalizing s with
  | nil => exact h
  | cons op rest ih => exact ih (applyOp s op) (builderInv_applyOp s op h)

/-- On a state satisfying the invariant, a failing `build` can only be a
missing-field failure: the two defensive re-checks never fire and
`_calculate_price` cannot fail either. -/
theorem build_error_inv (s : CoffeeOrderBuilder) (h : BuilderInv s)
    (msg : String) (he : build s = Except.error msg) :
    msg = "base is required" ∨ msg = "size is required" := by
  obtain ⟨hnd, hlen, h0, h5⟩ := h
  rcases hb : s._base with _ | b
  · left
    simp only [build, hb, Except.error.injEq] at he
    exact he.symm
  · rcases hs : s._size with _ | sz
    · right
      simp only [build, hb, hs, Except.error.injEq] at he
      exact he.symm
    · exfalso
      simp only [build, hb, hs, _calculate_price] at he
      rw [if_neg (Nat.not_lt.mpr hlen), if_neg (not_not_intro ⟨h0, h5⟩)] at he
      exact Except.noConfusion he

/-! ## Claims -/

/-- C1: for every builder state with base and size set to valid values, a
valid milk category, at most 4 distinct syrups and sugar within 0..5,
`build()` returns an order priced
`BASE_PRICES[base] * SIZE_MULTIPLIERS[size] + MILK_PRICES[milk]
 + (distinct syrup count) * 40.0 + (0.2 if iced else 0)`, with the fixed
tables espresso=200, americano=250, latte=300, cappuccino=320; small=1.0,
medium=1.2, large=1.4; none=0, whole=30, skim=30, oat=60, soy=50. -/
theorem C1_price_formula (b s m : String) (syr : List String) (sug : Int)
    (ic : Bool) (hb : b ∈ VALID_BASES) (hs : s ∈ VALID_SIZES)
    (hm : m ∈ VALID_MILKS) (hnd : syr.Nodup) (hlen : syr.length ≤ 4)
    (h0 : 0 ≤ sug) (h5 : sug ≤ 5) :
    (∃ o : CoffeeOrder,
      build ⟨some b, some s, m, syr, sug, ic⟩ = Except.ok o ∧
      o.price = BASE_PRICES b * SIZE_MULTIPLIERS s + MILK_PRICES m
        + (syr.length : ℚ) * 40.0 + (if ic then (0.2 : ℚ) else 0)) ∧
    BASE_PRICES "espresso" = 200.0 ∧ BASE_PRICES "americano" = 250.0 ∧
    BASE_PRICES "latte" = 300.0 ∧ BASE_PRICES "cappuccino" = 320.0 ∧
    SIZE_MULTIPLIERS "small" = 1.0 ∧ SIZE_MULTIPLIERS "medium" = 1.2 ∧
    SIZE_MULTIPLIERS "large" = 1.4 ∧ MILK_PRICES "none" = 0.0 ∧
    MILK_PRICES "whole" = 30.0 ∧ MILK_PRICES "skim" = 30.0 ∧
    MILK_PRICES "oat" = 60.0 ∧ MILK_PRICES "soy" = 50.0 := by
  refine ⟨⟨_, build_ok b s m syr sug ic hlen h0 h5, rfl⟩,
    rfl, rfl, rfl, rfl, rfl, rfl, rfl, rfl, rfl, rfl, rfl, rfl⟩

/-- Witness for C1 at base=latte, size=medium, milk=oat, one syrup, sugar=2,
iced. -/
theorem C1_price_formula_witness :
    (∃ o : CoffeeOrder,
      build ⟨some "latte", some "medium", "oat", ["vanilla"], 2, true⟩
        = Except.ok o ∧
      o.price = BASE_PRICES "latte" * SIZE_MULTIPLIERS "medium"
        + MILK_PRICES "oat" + ((["vanilla"] : List String).length : ℚ) * 40.0
        + (if true then (0.2 : ℚ) else 0)) ∧
    BASE_PRICES "espresso" = 200.0 ∧ BASE_PRICES "americano" = 250.0 ∧
    BASE_PRICES "latte" = 300.0 ∧ BASE_PRICES "cappuccino" = 320.0 ∧
    SIZE_MULTIPLIERS "small" = 1.0 ∧ SIZE_MULTIPLIERS "medium" = 1.2 ∧
    SIZE_MULTIPLIERS "large" = 1.4 ∧ MILK_PRICES "none" = 0.0 ∧
    MILK_PRICES "whole" = 30.0 ∧ MILK_PRICES "skim" = 30.0 ∧
    MILK_PRICES "oat" = 60.0 ∧ MILK_PRICES "soy" = 50.0 :=
  C1_price_formula "latte" "medium" "oat" ["vanilla"] 2 true (by decide)
    (by decide) (by decide) (by decide) (by decide) (by decide) (by decide)

/-- C2 counterexample: in a builder already holding 4 syrups, adding a name
that is already present is NOT a silent no-op — the capacity check of
`add_syrup` fires first and the call raises `cannot add more than 4 syrups`.
This refutes the claim specifically at its "including when the builder
already holds 4 syrups" clause. -/
theorem C2_counterexample :
    "a" ∈ (CoffeeOrderBuilder.mk (some "latte") (some "medium") "none"
      ["a", "b", "c", "d"] 0 false)._syrups ∧
    add_syrup (CoffeeOrderBuilder.mk (some "latte") (some "medium") "none"
      ["a", "b", "c", "d"] 0 false) "a"
      = Except.error "cannot add more than 4 syrups" := by
  exact ⟨by decide, rfl⟩

/-- C2 amended: for every builder state holding FEWER than 4 syrups, adding a
name already present (exact match) does not raise and leaves the whole
builder state (in particular the syrup sequence) unchanged; with 4 syrups
held, `add_syrup` raises CapacityExceeded even for an already present
name. -/
theorem C2_idempotent_add (s : CoffeeOrderBuilder) (name : String)
    (hlt : s._syrups.length < MAX_SYRUPS) (hmem : name ∈ s._syrups) :
    add_syrup s name = Except.ok s := by
  simp only [add_syrup]
  rw [if_neg (Nat.not_le.mpr hlt), if_neg (not_not_intro hmem)]

/-- Witness for the amended C2: one "vanilla" held, "vanilla" re-added. -/
theorem C2_idempotent_add_witness :
    add_syrup (CoffeeOrderBuilder.mk (some "latte") (some "medium") "none"
      ["vanilla"] 0 false) "vanilla"
      = Except.ok (CoffeeOrderBuilder.mk (some "latte") (some "medium") "none"
        ["vanilla"] 0 false) :=
  C2_idempotent_add _ "vanilla" (by decide) (by decide)

/-- C3: from a fresh builder, base=latte, size=medium and three
`add_syrup("vanilla")` calls all succeed, and `build()` returns an order with
exactly 1 syrup and price exactly 400.0. -/
theorem C3_duplicate_syrup_price :
    ∃ o : CoffeeOrder,
      (do
        let b1 ← set_base newBuilder "latte"
        let b2 ← set_size b1 "medium"
        let b3 ← add_syrup b2 "vanilla"
        let b4 ← add_syrup b3 "vanilla"
        let b5 ← add_syrup b4 "vanilla"
        build b5 : Except String CoffeeOrder) = Except.ok o ∧
      o.syrups.length = 1 ∧ o.price = 400.0 := by
  refine ⟨_, rfl, rfl, ?_⟩
  simp [BASE_PRICES, SIZE_MULTIPLIERS, MILK_PRICES, SYRUP_PRICE, ICED_PRICE,
    newBuilder]
  norm_num

/-- C4 (a code bug): the claim asserts the iced-minus-plain price
difference is exactly 0.2, as do the spec and the assertion at line 272 of
the source test. In the exact-decimal reading of the price rules the claim
holds — the first conjunct shows it at the failing input base=americano,
size=small, no extras, where the plain price is exactly 250. But the source
computes in binary64, and there the computed difference at this very input
is `7036874417766 * 2 ^ (-45)` = 0.19999999999998863..., which differs both
from the exact constant 0.2 and from the binary64 value `t` of the literal
`0.2` that the source test compares against — so the code violates the
claim and its own test. The second conjunct derives this for every
round-to-nearest choice: `t` rounds the literal 0.2 (the `ICED_PRICE` the
source adds), `a` rounds the iced addition `250 + t` of
`_calculate_price`, and `d` rounds the price difference `a - 250` that the
source test compares to `t`. -/
theorem C4_float_divergence :
    (∃ oIced oPlain : CoffeeOrder,
      build ⟨some "americano", some "small", "none", [], 0, true⟩
        = Except.ok oIced ∧
      build ⟨some "americano", some "small", "none", [], 0, false⟩
        = Except.ok oPlain ∧
      oPlain.price = 250 ∧ oIced.price - oPlain.price = 0.2) ∧
    (∀ t a d : ℚ, RoundsTo64 0.2 t → RoundsTo64 (250 + t) a →
      RoundsTo64 (a - 250) d →
      d = (7036874417766 : ℚ) * (2:ℚ) ^ (-45 : ℤ) ∧ d ≠ 0.2 ∧ d ≠ t) := by
  constructor
  · refine ⟨_, _,
      build_ok "americano" "small" "none" [] 0 true (by decide) (by decide)
        (by decide),
      build_ok "americano" "small" "none" [] 0 false (by decide) (by decide)
        (by decide), ?_, ?_⟩
    · simp [BASE_PRICES, SIZE_MULTIPLIERS, MILK_PRICES]
      norm_num
    · simp [ICED_PRICE]
  · intro t a d ht ha hd
    have h1 := round64_eval 0.2 ((7205759403792794 : ℚ) * (2:ℚ) ^ (-55 : ℤ))
      7205759403792794 (-55) rfl (by norm_num) (by norm_num)
      (by norm_num [zpow_neg]) (by norm_num [zpow_neg])
      (by norm_num [zpow_neg])
    have ht2 := h1.2 t ht
    subst ht2
    have h2 := round64_eval
      (250 + (7205759403792794 : ℚ) * (2:ℚ) ^ (-55 : ℤ))
      ((8803129896625766 : ℚ) * (2:ℚ) ^ (-45 : ℤ)) 8803129896625766 (-45)
      rfl (by norm_num) (by norm_num [zpow_neg]) (by norm_num [zpow_neg])
      (by norm_num [zpow_neg]) (by norm_num [zpow_neg])
    have ha2 := h2.2 a ha
    subst ha2
    have h3 := round64_exact
      ((8803129896625766 : ℚ) * (2:ℚ) ^ (-45 : ℤ) - 250)
      ⟨7036874417766, -45, by norm_num, by norm_num [zpow_neg]⟩
    have hd2 := h3.2 d hd
    subst hd2
    exact ⟨by norm_num [zpow_neg], by norm_num [zpow_neg],
      by norm_num [zpow_neg]⟩

/-- Witness for C4: the three rounding hypotheses hold at the actual
binary64 values of the computation, and the conclusion follows there. -/
theorem C4_float_divergence_witness :
    RoundsTo64 0.2 ((7205759403792794 : ℚ) * (2:ℚ) ^ (-55 : ℤ)) ∧
    RoundsTo64 (250 + (7205759403792794 : ℚ) * (2:ℚ) ^ (-55 : ℤ))
      ((8803129896625766 : ℚ) * (2:ℚ) ^ (-45 : ℤ)) ∧
    RoundsTo64 ((8803129896625766 : ℚ) * (2:ℚ) ^ (-45 : ℤ) - 250)
      ((8803129896625766 : ℚ) * (2:ℚ) ^ (-45 : ℤ) - 250) ∧
    ((8803129896625766 : ℚ) * (2:ℚ) ^ (-45 : ℤ) - 250
        = (7036874417766 : ℚ) * (2:ℚ) ^ (-45 : ℤ) ∧
      (8803129896625766 : ℚ) * (2:ℚ) ^ (-45 : ℤ) - 250 ≠ 0.2 ∧
      (8803129896625766 : ℚ) * (2:ℚ) ^ (-45 : ℤ) - 250
        ≠ (7205759403792794 : ℚ) * (2:ℚ) ^ (-55 : ℤ)) := by
  have ht := (round64_eval 0.2
    ((7205759403792794 : ℚ) * (2:ℚ) ^ (-55 : ℤ)) 7205759403792794 (-55) rfl
    (by norm_num) (by norm_num) (by norm_num [zpow_neg])
    (by norm_num [zpow_neg]) (by norm_num [zpow_neg])).1
  have ha := (round64_eval
    (250 + (7205759403792794 : ℚ) * (2:ℚ) ^ (-55 : ℤ))
    ((8803129896625766 : ℚ) * (2:ℚ) ^ (-45 : ℤ)) 8803129896625766 (-45) rfl
    (by norm_num) (by norm_num [zpow_neg]) (by norm_num [zpow_neg])
    (by norm_num [zpow_neg]) (by norm_num [zpow_neg])).1
  have hd := (round64_exact
    ((8803129896625766 : ℚ) * (2:ℚ) ^ (-45 : ℤ) - 250)
    ⟨7036874417766, -45, by norm_num, by norm_num [zpow_neg]⟩).1
  exact ⟨ht, ha, hd, C4_float_divergence.2 _ _ _ ht ha hd⟩

/-- C5: for every buildable state with base and size set, the description of
the built order is the space-join of the ordered parts given by the spec
wording (captured by `spec_description`); and at base=cappuccino, size=large,
milk=oat, syrups=[vanilla, caramel], sugar=2, iced=true that join is exactly
"large cappuccino with oat milk +vanilla+caramel (iced) 2 tsp sugar". -/
theorem C5_description_format (b s m : String) (syr : List String) (sug : Int)
    (ic : Bool) (hlen : syr.length ≤ MAX_SYRUPS) (h0 : 0 ≤ sug)
    (h5 : sug ≤ MAX_SUGAR) :
    (∃ o : CoffeeOrder,
      build ⟨some b, some s, m, syr, sug, ic⟩ = Except.ok o ∧
      o.description = spec_description s b m syr ic sug) ∧
    spec_description "large" "cappuccino" "oat" ["vanilla", "caramel"] true 2
      = "large cappuccino with oat milk +vanilla+caramel (iced) 2 tsp sugar" := by
  exact ⟨⟨_, build_ok b s m syr sug ic hlen h0 h5,
    description_eq_spec b s m syr sug ic⟩, by decide⟩

/-- Witness for C5 at the concrete scenario of the claim. -/
theorem C5_description_format_witness :
    (∃ o : CoffeeOrder,
      build ⟨some "cappuccino", some "large", "oat", ["vanilla", "caramel"],
        2, true⟩ = Except.ok o ∧
      o.description = spec_description "large" "cappuccino" "oat"
        ["vanilla", "caramel"] true 2) ∧
    spec_description "large" "cappuccino" "oat" ["vanilla", "caramel"] true 2
      = "large cappuccino with oat milk +vanilla+caramel (iced) 2 tsp sugar" :=
  C5_description_format "cappuccino" "large" "oat" ["vanilla", "caramel"] 2
    true (by decide) (by decide) (by decide)

/-- C6: a builder holding exactly 4 syrups rejects a 5th distinct name with
the CapacityExceeded message of the source, `cannot add more than 4 syrups`
(which names the limit 4), and the failed call leaves every builder field
unchanged. -/
theorem C6_capacity_exceeded (s : CoffeeOrderBuilder) (name : String)
    (hfull : s._syrups.length = 4) (hnew : name ∉ s._syrups) :
    add_syrup s name = Except.error "cannot add more than 4 syrups" ∧
    applyOp s (Op.addSyrup name) = s := by
  have h4 : s._syrups.length ≥ MAX_SYRUPS := by simp [MAX_SYRUPS, hfull]
  constructor
  · simp only [add_syrup, if_pos h4]
    rfl
  · simp only [applyOp, add_syrup, if_pos h4, stepOr]

/-- Witness for C6: 4 syrups held, a distinct 5th rejected. -/
theorem C6_capacity_exceeded_witness :
    add_syrup (CoffeeOrderBuilder.mk (some "latte") (some "medium") "none"
      ["a", "b", "c", "d"] 0 false) "mint"
      = Except.error "cannot add more than 4 syrups" ∧
    applyOp (CoffeeOrderBuilder.mk (some "latte") (some "medium") "none"
      ["a", "b", "c", "d"] 0 false) (Op.addSyrup "mint")
      = CoffeeOrderBuilder.mk (some "latte") (some "medium") "none"
        ["a", "b", "c", "d"] 0 false :=
  C6_capacity_exceeded _ "mint" (by decide) (by decide)

/-- C7: `build()` on a state without base raises MissingField
"base is required"; with base set but size unset it raises MissingField
"size is required"; in both cases only an error (no order) is produced and
the builder state is untouched (`build` never mutates). -/
theorem C7_missing_fields (s : CoffeeOrderBuilder) :
    (s._base = none → build s = Except.error "base is required") ∧
    (∀ b : String, s._base = some b → s._size = none →
      build s = Except.error "size is required") ∧
    applyOp s Op.buildOp = s := by
  refine ⟨?_, ?_, rfl⟩
  · intro h
    simp only [build, h]
  · intro b hb hs
    simp only [build, hb, hs]

/-- Witness for C7: fresh builder (no base), and espresso without size. -/
theorem C7_missing_fields_witness :
    build newBuilder = Except.error "base is required" ∧
    build (CoffeeOrderBuilder.mk (some "espresso") none "none" [] 0 false)
      = Except.error "size is required" ∧
    applyOp newBuilder Op.buildOp = newBuilder :=
  ⟨(C7_missing_fields newBuilder).1 rfl,
    (C7_missing_fields _).2.1 "espresso" rfl rfl,
    (C7_missing_fields newBuilder).2.2⟩

/-- C8: `clear_extras()` never raises (it is total, and at the operation
level `applyOp` takes it unconditionally), resets milk to none, syrups to
empty, sugar to 0 and iced to false, leaves base and size exactly as they
were, and a subsequent `build()` with base and size set yields the order of
just base and size plus those defaults. -/
theorem C8_clear_extras (st : CoffeeOrderBuilder) :
    (clear_extras st)._milk = "none" ∧ (clear_extras st)._syrups = [] ∧
    (clear_extras st)._sugar = 0 ∧ (clear_extras st)._iced = false ∧
    (clear_extras st)._base = st._base ∧ (clear_extras st)._size = st._size ∧
    applyOp st Op.clearExtras = clear_extras st ∧
    (∀ b s : String, st._base = some b → st._size = some s →
      build (clear_extras st) = Except.ok
        { base := b, size := s, milk := "none", syrups := [], sugar := 0,
          iced := false, price := BASE_PRICES b * SIZE_MULTIPLIERS s,
          description := s ++ " " ++ b }) := by
  refine ⟨rfl, rfl, rfl, rfl, rfl, rfl, rfl, ?_⟩
  intro b s hb hs
  obtain ⟨ob, os, m0, sy0, su0, ic0⟩ := st
  simp only at hb hs
  subst hb
  subst hs
  show build ⟨some b, some s, "none", [], 0, false⟩ = _
  rw [build_ok b s "none" [] 0 false (by decide) (by decide) (by decide)]
  simp [CoffeeOrder.mk.injEq, MILK_PRICES, _build_description]
  exact ⟨by norm_num, rfl⟩

/-- Witness for C8 at a fully loaded builder. -/
theorem C8_clear_extras_witness :
    (clear_extras (CoffeeOrderBuilder.mk (some "espresso") (some "small")
      "soy" ["chocolate"] 3 true))._milk = "none" ∧
    (clear_extras (CoffeeOrderBuilder.mk (some "espresso") (some "small")
      "soy" ["chocolate"] 3 true))._syrups = [] ∧
    (clear_extras (CoffeeOrderBuilder.mk (some "espresso") (some "small")
      "soy" ["chocolate"] 3 true))._sugar = 0 ∧
    (clear_extras (CoffeeOrderBuilder.mk (some "espresso") (some "small")
      "soy" ["chocolate"] 3 true))._iced = false ∧
    (clear_extras (CoffeeOrderBuilder.mk (some "espresso") (some "small")
      "soy" ["chocolate"] 3 true))._base
      = (CoffeeOrderBuilder.mk (some "espresso") (some "small")
        "soy" ["chocolate"] 3 true)._base ∧
    (clear_extras (CoffeeOrderBuilder.mk (some "espresso") (some "small")
      "soy" ["chocolate"] 3 true))._size
      = (CoffeeOrderBuilder.mk (some "espresso") (some "small")
        "soy" ["chocolate"] 3 true)._size ∧
    build (clear_extras (CoffeeOrderBuilder.mk (some "espresso")
      (some "small") "soy" ["chocolate"] 3 true)) = Except.ok
        { base := "espresso", size := "small", milk := "none", syrups := [],
          sugar := 0, iced := false,
          price := BASE_PRICES "espresso" * SIZE_MULTIPLIERS "small",
          description := "small espresso" } := by
  have h := C8_clear_extras (CoffeeOrderBuilder.mk (some "espresso")
    (some "small") "soy" ["chocolate"] 3 true)
  exact ⟨h.1, h.2.1, h.2.2.1, h.2.2.2.1, h.2.2.2.2.1, h.2.2.2.2.2.1,
    h.2.2.2.2.2.2.2 "espresso" "small" rfl rfl⟩

/-- C9: orders are immutable once built. In the pure embedding the orders a
call sequence returns are values; the theorem states that the orders
produced by a first segment of calls appear unchanged, field for field, in
the output of any extended sequence — no subsequent builder operation
(setters, `clear_extras`, further `build`s) can alter an already built
order. -/
theorem C9_built_orders_immutable (l1 l2 : List Op) (s : CoffeeOrderBuilder) :
    ordersOf (l1 ++ l2) s = ordersOf l1 s ++ ordersOf l2 (applyOps s l1) := by
  induction l1 generalizing s with
  | nil => rfl
  | cons op rest ih =>
      calc ordersOf ((op :: rest) ++ l2) s
          = builtHere s op ++ ordersOf (rest ++ l2) (applyOp s op) := rfl
        _ = builtHere s op ++ (ordersOf rest (applyOp s op)
              ++ ordersOf l2 (applyOps (applyOp s op) rest)) := by
            rw [ih]
        _ = (builtHere s op ++ ordersOf rest (applyOp s op))
              ++ ordersOf l2 (applyOps s (op :: rest)) := by
            rw [List.append_assoc]
            rfl
        _ = ordersOf (op :: rest) s ++ ordersOf l2 (applyOps s (op :: rest)) :=
            rfl

/-- C10: every builder state reachable from a fresh builder through the
public operations has pairwise distinct syrups, at most 4 of them, and sugar
within 0..5; consequently `build()` on a reachable state can only fail with
one of the two missing-field messages — the defensive re-checks (syrup
count, sugar range) never fire. -/
theorem C10_reachable_invariant (l : List Op) :
    (runOps l)._syrups.Nodup ∧ (runOps l)._syrups.length ≤ 4 ∧
    0 ≤ (runOps l)._sugar ∧ (runOps l)._sugar ≤ 5 ∧
    (∀ msg : String, build (runOps l) = Except.error msg →
      msg = "base is required" ∨ msg = "size is required") := by
  have h : BuilderInv (runOps l) :=
    builderInv_applyOps newBuilder builderInv_newBuilder l
  exact ⟨h.1, h.2.1, h.2.2.1, h.2.2.2, fun msg he =>
    build_error_inv (runOps l) h msg he⟩

/-- Witness for C10 on the sequence that sets a base, overfills nothing and
then builds without a size. -/
theorem C10_reachable_invariant_witness :
    (runOps [Op.setBase "latte", Op.addSyrup "vanilla"])._syrups.Nodup ∧
    (runOps [Op.setBase "latte", Op.addSyrup "vanilla"])._syrups.length ≤ 4 ∧
    0 ≤ (runOps [Op.setBase "latte", Op.addSyrup "vanilla"])._sugar ∧
    (runOps [Op.setBase "latte", Op.addSyrup "vanilla"])._sugar ≤ 5 ∧
    ("size is required" = "base is required" ∨
      "size is required" = "size is required") := by
  have h := C10_reachable_invariant [Op.setBase "latte", Op.addSyrup "vanilla"]
  exact ⟨h.1, h.2.1, h.2.2.1, h.2.2.2.1, h.2.2.2.2 "size is required" rfl⟩
